import Mathlib

/-!
Verification development for a small remote-execution system consisting of a
client module (decorator-based dispatcher and source bundler, local_client.py)
and a server module (Flask /exec handler, app.py).

Source text is modelled as a list of characters; the Python string operations
used by the bundler (str.split, str.splitlines, str.join, str.lstrip,
str.startswith, textwrap.dedent) are translated below, restricted to text
whose only line separator is the newline character, which is what
inspect.getsource produces for ordinary files.
-/

namespace Evalmode

/-- Characters treated as whitespace by Python str.lstrip (no newline can
occur inside a split line, but it is included for faithfulness). -/
def isPyWsB (c : Char) : Bool :=
  c == ' ' || c == '\t' || c == '\n' || c == '\r' || c == '\x0c' || c == '\x0b'

/-- Characters counted as indentation by textwrap.dedent: space and tab. -/
def isTabSpaceB (c : Char) : Bool :=
  c == ' ' || c == '\t'

/-- Python text.split with separator a single newline: every newline starts a
new piece, and the list of pieces is never empty. -/
def splitNL : List Char → List (List Char)
  | [] => [[]]
  | c :: cs =>
    if c = '\n' then [] :: splitNL cs
    else
      match splitNL cs with
      | [] => [[c]]
      | h :: t => (c :: h) :: t

/-- Python sep.join for lists of characters. -/
def joinSep (sep : List Char) : List (List Char) → List Char
  | [] => []
  | [x] => x
  | x :: y :: t => x ++ sep ++ joinSep sep (y :: t)

/-- Newline join, Python "\n".join. -/
def joinNL (ls : List (List Char)) : List Char :=
  joinSep ['\n'] ls

/-- Python str.splitlines restricted to newline-separated text: like splitNL
but an empty string gives no lines and a trailing newline closes the last
line instead of opening an empty one. -/
def splitlinesL (s : List Char) : List (List Char) :=
  if s.isEmpty then []
  else if s.getLast? = some '\n' then (splitNL s).dropLast
  else splitNL s

/-- Does the line, after stripping leading whitespace, start with the at sign?
This is the test lines[0].lstrip().startswith(an at sign) used by
strip_decorators in local_client.py. -/
def isDecoratorLine (l : List Char) : Bool :=
  match l.dropWhile isPyWsB with
  | '@' :: _ => true
  | _ => false

/-- Translation of local_client._strip_decorators: split the source into
lines, pop leading decorator lines, join the rest with newlines. -/
def strip_decorators (src : List Char) : List Char :=
  joinNL ((splitlinesL src).dropWhile isDecoratorLine)

/-- Longest common starting run of two character lists; used for the margin
computation of textwrap.dedent. -/
def sharedStart : List Char → List Char → List Char
  | c :: cs, d :: ds => if c = d then c :: sharedStart cs ds else []
  | _, _ => []

/-- Boolean test that pat is an initial segment of s. -/
def startsWithL : List Char → List Char → Bool
  | [], _ => true
  | _ :: _, [] => false
  | c :: cs, d :: ds => c == d && startsWithL cs ds

/-- First phase of textwrap.dedent: lines made only of spaces and tabs are
normalized to empty lines. -/
def blankWsLines (ls : List (List Char)) : List (List Char) :=
  ls.map (fun l => if !l.isEmpty && l.all isTabSpaceB then [] else l)

/-- Margin of textwrap.dedent: the longest common indentation (spaces and
tabs) of the nonempty lines, computed after whitespace-only lines were
blanked. -/
def marginOf (ls : List (List Char)) : List Char :=
  match (ls.filter (fun l => !l.isEmpty)).map (List.takeWhile isTabSpaceB) with
  | [] => []
  | i :: is => is.foldl sharedStart i

/-- Translation of textwrap.dedent (CPython): blank the whitespace-only
lines, compute the common margin of the remaining lines, and remove that
margin from every line that starts with it. -/
def pyDedent (text : List Char) : List Char :=
  let ls := blankWsLines (splitNL text)
  let m := marginOf ls
  joinNL (ls.map (fun l => if startsWithL m l then l.drop m.length else l))

/-- Processing applied to each source fragment at decoration time in
local_client.py: textwrap.dedent composed with strip_decorators. -/
def procSource (src : List Char) : List Char :=
  pyDedent (strip_decorators src)

/-- Two newline characters, the fragment separator of the bundler. -/
def nl2 : List Char := ['\n', '\n']

/-- Translation of the bundle construction in local_client.decorator:
func_source and dep_sources are the processed fragments, bundle_deps_code is
their double-newline join, and the final code string is the format string
gluing bundle_deps_code, a double newline, and func_source. -/
def buildBundle (entrySrc : List Char) (depSrcs : List (List Char)) : List Char :=
  let func_source := procSource entrySrc
  let dep_sources := depSrcs.map procSource
  let bundle_deps_code := joinSep nl2 dep_sources
  bundle_deps_code ++ nl2 ++ func_source

/-- Modelled from the wording of the spec for comparison with buildBundle:
the processed helper fragments in registration order followed by the
processed entry fragment, joined with blank-line separators. -/
def bundleSpec (entrySrc : List Char) (depSrcs : List (List Char)) : List Char :=
  joinSep nl2 (depSrcs.map procSource ++ [procSource entrySrc])

/-- The pattern pat occurs as a contiguous segment of s. -/
def occursIn (pat s : List Char) : Prop :=
  ∃ l r, s = l ++ pat ++ r

/-- Boolean scan for an occurrence of pat inside s: pat starts at some
suffix of s. -/
def containsL (pat : List Char) : List Char → Bool
  | [] => pat.isEmpty
  | c :: rest => startsWithL pat (c :: rest) || containsL pat rest

/-- Shape of a fragment source as inspect.getsource returns it for a
decorated definition: some leading decorator lines, then a body whose first
line is not a decorator line; the body lines contain no newline and no
occurrence of the pattern (references to the dispatch mechanism live only on
the decorator lines). -/
def CleanSource (pat : List Char) (src : List Char) : Prop :=
  ∃ decs body, splitlinesL src = decs ++ body ∧
    (∀ d ∈ decs, isDecoratorLine d = true) ∧
    body ≠ [] ∧
    (∀ l ∈ body.take 1, isDecoratorLine l = false) ∧
    (∀ l ∈ body, '\n' ∉ l ∧ containsL pat l = false)

/-!
Executor model (app.py). The dynamic Python evaluation step cannot be
embedded directly, so the execution of a code string in an environment is an
abstract deterministic semantics passed as a parameter; everything the /exec
handler does around that step is translated from the source.
-/

/-- JSON values, the data carried by the wire protocol. -/
inductive Json where
  | null
  | bool (b : Bool)
  | num (n : Int)
  | str (s : String)
  | arr (xs : List Json)
  | obj (fields : List (String × Json))

/-- Association lookup on the fields of a JSON object; dict.get on the
decoded body (none on a non-object, whose field access the protocol never
reaches in the claims below). -/
def Json.get : Json → String → Option Json
  | .obj fields, k => lookupField fields k
  | _, _ => none
where
  lookupField : List (String × Json) → String → Option Json
    | [], _ => none
    | (k, v) :: t, key => if k = key then some v else lookupField t key

/-- Python runtime values as far as the protocol observes them: either a
JSON-serializable value or a bare object that jsonify rejects, identified by
the name of its type. -/
inductive PyVal where
  | json (j : Json)
  | raw (typeName : String)

/-- Serialization of a result value into the response body, the step
performed by jsonify on the result field; fails exactly on non-serializable
values. -/
def serialize : PyVal → Option Json
  | .json j => some j
  | .raw _ => none

/-- Outcome of invoking one callable from the evaluation environment: a
return value or a raised exception, together with the text the invocation
wrote to the captured stdout. -/
inductive CallOut where
  | exn (error : String) (traceback : String) (out : String)
  | ok (ret : PyVal) (out : String)

/-- A callable bound in the evaluation environment. -/
structure PyFunc where
  call : List PyVal → List (String × PyVal) → CallOut

/-- The evaluation environment: the single shared namespace dictionary of
exec_code, as a name-to-callable association list. -/
abbrev Env := List (String × PyFunc)

/-- Name lookup in the environment, env[func_name]; none is the KeyError
case. -/
def lookupEnv : Env → String → Option PyFunc
  | [], _ => none
  | (k, f) :: t, key => if k = key then some f else lookupEnv t key

/-- Outcome of evaluating a code string in an environment (the exec step): a
raised exception, or the resulting environment, together with captured
stdout text. -/
inductive EvalOut where
  | exn (error : String) (traceback : String) (out : String)
  | ok (env : Env) (out : String)

/-- Abstract deterministic semantics of evaluating a code string starting
from a given environment. -/
abbrev EvalSem := String → Env → EvalOut

/-- Parsed request payload of POST /exec. -/
structure Payload where
  code : String
  func_name : String
  args : List PyVal
  kwargs : List (String × PyVal)

/-- Structured response body of the /exec handler: the two jsonify shapes of
app.py, success with result and stdout, or failure with error, traceback and
stdout. -/
inductive ExecResponse where
  | ok (result : Json) (stdout : String)
  | err (error : String) (traceback : String) (stdout : String)

/-- The status field of the response body. -/
def ExecResponse.statusField : ExecResponse → String
  | .ok _ _ => "ok"
  | .err _ _ _ => "error"

/-- The transport status code the handler returns with each body shape. -/
def ExecResponse.httpStatus : ExecResponse → Nat
  | .ok _ _ => 200
  | .err _ _ _ => 500

/-- The stdout field of the response body. -/
def ExecResponse.stdoutField : ExecResponse → String
  | .ok _ out => out
  | .err _ _ out => out

/-- Message of the KeyError raised by env[func_name] when the entry point is
absent: str of KeyError is the key in single quotes. -/
def keyErrorStr (name : String) : String :=
  "\x27" ++ name ++ "\x27"

/-- Diagnostic trace reported for the missing-entry-point KeyError. -/
def keyErrorTb (name : String) : String :=
  "Traceback (most recent call last):\nKeyError: \x27" ++ name ++ "\x27"

/-- Message of the TypeError raised by jsonify on a non-serializable result
value. -/
def serializeErrorStr (v : PyVal) : String :=
  match v with
  | .raw t => "Object of type " ++ t ++ " is not JSON serializable"
  | .json _ => "Object is not JSON serializable"

/-- Diagnostic trace reported for the serialization TypeError. -/
def serializeErrorTb (v : PyVal) : String :=
  "Traceback (most recent call last):\nTypeError: " ++ serializeErrorStr v

/-- Translation of the /exec handler exec_code of app.py: allocate a fresh
stdout buffer and a fresh empty environment, evaluate the bundle, look up
the entry point, invoke it, serialize the result; every exception raised on
the way yields the error-shaped body carrying the buffer content
accumulated so far, and a successful run yields the ok-shaped body. -/
def exec_code (sem : EvalSem) (p : Payload) : ExecResponse :=
  match sem p.code [] with
  | .exn e tb out => .err e tb out
  | .ok env out1 =>
    match lookupEnv env p.func_name with
    | none => .err (keyErrorStr p.func_name) (keyErrorTb p.func_name) out1
    | some f =>
      match f.call p.args p.kwargs with
      | .exn e tb out2 => .err e tb (out1 ++ out2)
      | .ok v out2 =>
        match serialize v with
        | some j => .ok j (out1 ++ out2)
        | none => .err (serializeErrorStr v) (serializeErrorTb v) (out1 ++ out2)

/-- The server processing a sequence of requests: each request is handled by
exec_code with its own fresh environment and buffer; the handler reads no
state left by earlier requests, mirroring the handler-local env and
stdout_buf of app.py. -/
def runServer (sem : EvalSem) (reqs : List Payload) : List ExecResponse :=
  reqs.map (exec_code sem)

/-!
Dispatcher model (the wrapper closure built by remote_if_enabled in
local_client.py). The process environment is an association list read at
call time; the HTTP transport is a function from the request payload to the
received response, so the theorems quantify over every possible response.
-/

/-- Process environment lookup with a default, os.getenv(key, default). -/
def getenvD : List (String × String) → String → String → String
  | [], _, d => d
  | (k, v) :: t, key, d => if k = key then v else getenvD t key d

/-- Python str.lower, character by character. -/
def pyLower (s : String) : String :=
  ⟨s.data.map Char.toLower⟩

/-- Translation of local_client._remote_enabled: USE_REMOTE_EXEC, defaulted
to the string false, lowercased, tested against the three truthy spellings.
The environment is passed in as it stands at call time. -/
def remote_enabled (osEnv : List (String × String)) : Bool :=
  let v := pyLower (getenvD osEnv ("USE_REMOTE_EXEC") ("false"))
  v == "true" || v == "1" || v == "yes"

/-- An HTTP response as the wrapper observes it: transport status code, the
outcome of resp.json decoding, and the raw body text resp.text. -/
structure HttpResp where
  status_code : Nat
  json : Option Json
  text : String

/-- The request payload the wrapper posts to the remote endpoint. -/
structure ClientPayload where
  code : List Char
  func_name : String
  args : List PyVal
  kwargs : List (String × PyVal)

/-- Exceptions the wrapper can raise or pass through: the RuntimeError it
raises itself, the KeyError of a direct body index, or any exception raised
by the wrapped local function. -/
inductive PyExn where
  | runtimeError (msg : String)
  | keyError (key : String)
  | other (desc : String)

/-- A local Python callable: from args and kwargs to a value or a raised
exception. -/
abbrev LocalFn := List PyVal → List (String × PyVal) → Except PyExn PyVal

/-- Configuration captured by remote_if_enabled. -/
structure WrapperCfg where
  print_stdout : Bool := true
  print_traceback : Bool := true

/-- What one wrapper call produces: the text the wrapper itself printed to
the local console, and the returned value or raised exception. -/
structure WrapperOutcome where
  printed : String
  outcome : Except PyExn PyVal

/-- Python truthiness of a JSON value, used by the checks of the form
data.get(field) in boolean position. -/
def truthyJ : Json → Bool
  | .null => false
  | .bool b => b
  | .num n => n != 0
  | .str s => s != ""
  | .arr xs => !xs.isEmpty
  | .obj fields => !fields.isEmpty

/-- Truthiness of dict.get: a missing key is None, hence falsy. -/
def truthyO : Option Json → Bool
  | none => false
  | some j => truthyJ j

/-- Text printed for a JSON value by print and by f-string interpolation;
exact for strings, an informal rendering for the other shapes. -/
def pyStrOf : Json → String
  | .str s => s
  | .num n => toString n
  | .bool b => if b then "True" else "False"
  | .null => "None"
  | .arr _ => "list"
  | .obj _ => "dict"

/-- Python equality of the decoded status field with the string ok: true
exactly when the value is present and is that string. -/
def statusIsOk : Option Json → Bool
  | some (Json.str s) => s == "ok"
  | _ => false

/-- The value printed for the stdout or traceback field, data[field] under a
truthiness guard that ensures the field is present. -/
def fieldText (data : Json) (field : String) : String :=
  pyStrOf ((data.get field).getD Json.null)

/-- Remote path of the wrapper, lines 118 to 150 of local_client.py: post
the payload, decode the body, and translate the response; decoding failure
raises the RuntimeError carrying the raw body text; the success branch
requires transport status 200 and body status ok, echoes stdout when
configured, and returns data[result]; every other response echoes stdout
and traceback when configured and raises the RuntimeError built from the
error field or, when that is falsy, from the transport status code. -/
def remoteDispatch (cfg : WrapperCfg) (fullCode : List Char) (fname : String)
    (transport : ClientPayload → HttpResp)
    (args : List PyVal) (kwargs : List (String × PyVal)) : WrapperOutcome :=
  let payload : ClientPayload := ⟨fullCode, fname, args, kwargs⟩
  let resp := transport payload
  match resp.json with
  | none =>
    ⟨"", .error (.runtimeError (("Remote returned non-JSON body: ") ++ resp.text))⟩
  | some data =>
    if resp.status_code == 200 && statusIsOk (data.get ("status")) then
      let printed :=
        if cfg.print_stdout && truthyO (data.get ("stdout")) then
          ("[REMOTE STDOUT]\n") ++ fieldText data ("stdout")
        else ""
      match data.get ("result") with
      | some v => ⟨printed, .ok (PyVal.json v)⟩
      | none => ⟨printed, .error (.keyError ("result"))⟩
    else
      let p1 :=
        if cfg.print_stdout && truthyO (data.get ("stdout")) then
          ("[REMOTE STDOUT]\n") ++ fieldText data ("stdout")
        else ""
      let p2 :=
        if cfg.print_traceback && truthyO (data.get ("traceback")) then
          ("[REMOTE TRACEBACK]\n") ++ fieldText data ("traceback")
        else ""
      let err_msg :=
        if truthyO (data.get ("error")) then fieldText data ("error")
        else ("HTTP ") ++ toString resp.status_code
      ⟨p1 ++ p2, .error (.runtimeError (("Remote execution failed: ") ++ err_msg))⟩

/-- Translation of the wrapper closure, lines 113 to 150 of local_client.py:
when the enable switch read from the environment at call time is off, call
the original function with the given args and kwargs and pass its value or
exception through unchanged; otherwise take the remote path. -/
def wrapper (cfg : WrapperCfg) (fullCode : List Char) (fname : String)
    (func : LocalFn) (transport : ClientPayload → HttpResp)
    (osEnv : List (String × String))
    (args : List PyVal) (kwargs : List (String × PyVal)) : WrapperOutcome :=
  if remote_enabled osEnv then
    remoteDispatch cfg fullCode fname transport args kwargs
  else
    ⟨"", func args kwargs⟩

/-!
Concrete instances used to witness the theorems below.
-/

/-- A callable that raises a division error and prints nothing. -/
def divFn : PyFunc :=
  ⟨fun _ _ => CallOut.exn ("division by zero")
    ("Traceback (most recent call last):\nZeroDivisionError: division by zero") ("")⟩

/-- A callable that returns a non-serializable object after printing. -/
def rawFn : PyFunc :=
  ⟨fun _ _ => CallOut.ok (PyVal.raw ("object")) ("made an object\n")⟩

/-- Semantics of a bundle that prints during evaluation and defines f as the
failing callable. -/
def semDiv : EvalSem := fun _ _ => EvalOut.ok [("f", divFn)] ("hi\n")

/-- Semantics of a bundle defining g as the object-returning callable. -/
def semRaw : EvalSem := fun _ _ => EvalOut.ok [("g", rawFn)] ("")

/-- Semantics of a bundle whose evaluation raises at once. -/
def semBad : EvalSem :=
  fun _ _ => EvalOut.exn ("invalid syntax (<string>, line 1)")
    ("Traceback (most recent call last):\nSyntaxError: invalid syntax") ("")

/-- Request invoking f from the failing bundle. -/
def payDiv : Payload := ⟨"def f():\n    return 1/0", "f", [], []⟩

/-- Request invoking g from the object-returning bundle. -/
def payRaw : Payload := ⟨"def g():\n    return object()", "g", [], []⟩

/-- Request whose bundle does not compile. -/
def payBad : Payload := ⟨"def f(:", "f", [], []⟩

/-- A local function returning the number five. -/
def localFive : LocalFn := fun _ _ => Except.ok (PyVal.json (Json.num 5))

/-- Process environment with remote execution switched on. -/
def envOn : List (String × String) := [("USE_REMOTE_EXEC", "true")]

/-- Process environment with remote execution switched off (unset variable). -/
def envOff : List (String × String) := []

/-- Default wrapper configuration. -/
def cfgD : WrapperCfg := {}

/-- A response whose body decodes with status ok and result 7 but whose
transport status code is 500. -/
def respOkBody500 : HttpResp :=
  ⟨500, some (Json.obj [("status", Json.str ("ok")), ("result", Json.num 7)]), ("")⟩

/-- Transport producing respOkBody500 for every request. -/
def transOkBody500 : ClientPayload → HttpResp := fun _ => respOkBody500

/-- A well-formed success response on transport status 200. -/
def respOk200 : HttpResp :=
  ⟨200, some (Json.obj [("status", Json.str ("ok")), ("result", Json.num 7)]), ("")⟩

/-- Transport producing respOk200 for every request. -/
def transOk200 : ClientPayload → HttpResp := fun _ => respOk200

/-- A response whose body is not decodable as JSON. -/
def respGarbage : HttpResp := ⟨502, none, ("Bad Gateway")⟩

/-- Transport producing respGarbage for every request. -/
def transGarbage : ClientPayload → HttpResp := fun _ => respGarbage

/-- Entry-function source in the shape inspect.getsource returns for the
decorated test function of myscript.py. -/
def entrySrcEx : List Char :=
  ("@remote_if_enabled(remote_url=URL, print_stdout=True)\ndef test():\n    return 123\n").data

/-- Helper source carrying the registration marker decorator. -/
def depSrcEx : List Char :=
  ("@remote_func\ndef hello_world():\n    return 42\n").data

/-- A plain undecorated entry source. -/
def entryPlain : List Char := ("def f():\n    return 1\n").data

/-!
Theorems about the Bundler.
-/

/-- Appending one more piece to a nonempty join extends it by one separator
and the piece. -/
theorem joinSep_append_singleton (sep b : List Char) (xs : List (List Char))
    (h : xs ≠ []) :
    joinSep sep (xs ++ [b]) = joinSep sep xs ++ sep ++ b := by
  induction xs with
  | nil => exact absurd rfl h
  | cons x t ih =>
    cases t with
    | nil => simp [joinSep]
    | cons y t2 =>
      have ih2 := ih (List.cons_ne_nil y t2)
      calc joinSep sep ((x :: y :: t2) ++ [b])
          = x ++ sep ++ joinSep sep ((y :: t2) ++ [b]) := rfl
        _ = x ++ sep ++ (joinSep sep (y :: t2) ++ sep ++ b) := by rw [ih2]
        _ = (x ++ sep ++ joinSep sep (y :: t2)) ++ sep ++ b := by
            simp [List.append_assoc]
        _ = joinSep sep (x :: y :: t2) ++ sep ++ b := by
            simp only [joinSep]

/-- C4 counterexample: with no registered helpers the built bundle is the
entry fragment preceded by a stray blank-line separator, not the plain
blank-line-separated concatenation of the fragments that the claim
describes. -/
theorem buildBundle_no_deps_cex :
    buildBundle entryPlain [] = '\n' :: '\n' :: procSource entryPlain ∧
    buildBundle entryPlain [] ≠ bundleSpec entryPlain [] := by
  constructor
  · rfl
  · decide

/-- C4 as amended: whenever at least one helper is registered, the built
bundle is exactly the blank-line-separated concatenation of the processed
helper fragments, in registration order, followed by the processed entry
fragment; each fragment is processed by stripping its leading decorator
lines and dedenting it. -/
theorem buildBundle_eq_spec_concat (entrySrc : List Char)
    (depSrcs : List (List Char)) (h : depSrcs ≠ []) :
    buildBundle entrySrc depSrcs = bundleSpec entrySrc depSrcs := by
  have hm : depSrcs.map procSource ≠ [] := by
    cases depSrcs with
    | nil => exact absurd rfl h
    | cons a t => simp
  simp only [buildBundle, bundleSpec]
  rw [joinSep_append_singleton nl2 (procSource entrySrc) (depSrcs.map procSource) hm]

/-- Witness for buildBundle_eq_spec_concat at the registered helper and
entry function of myscript.py. -/
theorem buildBundle_eq_spec_concat_witness :
    buildBundle entrySrcEx [depSrcEx] = bundleSpec entrySrcEx [depSrcEx] :=
  buildBundle_eq_spec_concat entrySrcEx [depSrcEx] (List.cons_ne_nil _ _)

/-- startsWithL answers whether the pattern is an initial segment. -/
theorem startsWithL_iff (pat : List Char) : ∀ s : List Char,
    startsWithL pat s = true ↔ ∃ r, s = pat ++ r := by
  induction pat with
  | nil => intro s; simp [startsWithL]
  | cons c cs ih =>
    intro s
    cases s with
    | nil => simp [startsWithL]
    | cons d ds =>
      simp only [startsWithL, Bool.and_eq_true, beq_iff_eq, ih ds,
        List.cons_append, List.cons.injEq]
      constructor
      · rintro ⟨rfl, r, rfl⟩
        exact ⟨r, rfl, rfl⟩
      · rintro ⟨r, rfl, rfl⟩
        exact ⟨rfl, r, rfl⟩

/-- containsL answers exactly the occurrence predicate occursIn. -/
theorem containsL_iff (pat : List Char) : ∀ s : List Char,
    containsL pat s = true ↔ occursIn pat s := by
  intro s
  induction s with
  | nil =>
    simp only [containsL, List.isEmpty_iff, occursIn]
    constructor
    · rintro rfl
      exact ⟨[], [], rfl⟩
    · rintro ⟨l, r, h⟩
      rcases List.append_eq_nil.mp h.symm with ⟨h1, -⟩
      exact (List.append_eq_nil.mp h1).2
  | cons c rest ih =>
    simp only [containsL, Bool.or_eq_true, startsWithL_iff, ih]
    constructor
    · rintro (⟨r, hr⟩ | ⟨l, r, hr⟩)
      · exact ⟨[], r, by simpa using hr⟩
      · exact ⟨c :: l, r, by simp [hr]⟩
    · rintro ⟨l, r, hr⟩
      cases l with
      | nil => exact Or.inl ⟨r, by simpa using hr⟩
      | cons a l2 =>
        rw [List.cons_append, List.cons_append] at hr
        injection hr with h1 h2
        exact Or.inr ⟨l2, r, by simp [h2]⟩

/-- A nonempty pattern does not occur in the empty text. -/
theorem not_occursIn_nil {pat : List Char} (hp : pat ≠ []) :
    ¬ occursIn pat [] := by
  rintro ⟨l, r, h⟩
  rcases List.append_eq_nil.mp h.symm with ⟨h1, -⟩
  exact hp (List.append_eq_nil.mp h1).2

/-- Dropping a prefix of the text cannot create an occurrence. -/
theorem not_occursIn_drop {pat l : List Char} (h : ¬ occursIn pat l) (n : Nat) :
    ¬ occursIn pat (l.drop n) := by
  rintro ⟨a, b, hd⟩
  refine h ⟨l.take n ++ a, b, ?_⟩
  conv_lhs => rw [← List.take_append_drop n l]
  rw [hd]
  simp [List.append_assoc]

/-- An occurrence of a pattern that avoids the character c, inside a text
split by one copy of c, lies wholly on one side of the split. -/
theorem occursIn_append_cons {pat a b : List Char} {c : Char}
    (h : occursIn pat (a ++ c :: b)) (hp : pat ≠ []) (hc : c ∉ pat) :
    occursIn pat a ∨ occursIn pat b := by
  obtain ⟨l, r, heq⟩ := h
  rw [List.append_assoc] at heq
  rcases List.append_eq_append_iff.mp heq with ⟨a1, hl, hcb⟩ | ⟨c1, ha, hpr⟩
  · cases a1 with
    | nil =>
      cases pat with
      | nil => exact absurd rfl hp
      | cons p ps =>
        rw [List.nil_append, List.cons_append] at hcb
        injection hcb with h1 h2
        exact absurd (h1 ▸ List.mem_cons_self p ps) hc
    | cons x a2 =>
      rw [List.cons_append] at hcb
      injection hcb with h1 h2
      exact Or.inr ⟨a2, r, by rw [h2, List.append_assoc]⟩
  · rcases List.append_eq_append_iff.mp hpr with ⟨x, hc1, hr⟩ | ⟨y, hpat, hcb⟩
    · exact Or.inl ⟨l, x, by rw [ha, hc1, List.append_assoc]⟩
    · cases y with
      | nil =>
        refine Or.inl ⟨l, [], ?_⟩
        rw [List.append_nil] at hpat
        rw [ha, hpat]
        simp
      | cons z y2 =>
        rw [List.cons_append] at hcb
        injection hcb with h1 h2
        refine absurd ?_ hc
        rw [hpat, h1]
        exact List.mem_append_right c1 (List.mem_cons_self z y2)

/-- A newline-free nonempty pattern absent from every line is absent from
the newline join of the lines. -/
theorem not_occursIn_joinNL {pat : List Char} (hp : pat ≠ []) (hnl : '\n' ∉ pat) :
    ∀ ls : List (List Char), (∀ l ∈ ls, ¬ occursIn pat l) →
      ¬ occursIn pat (joinNL ls) := by
  intro ls
  induction ls with
  | nil => intro _; exact not_occursIn_nil hp
  | cons x t ih =>
    intro h
    cases t with
    | nil => simpa [joinNL, joinSep] using h x (List.mem_cons_self x [])
    | cons y t2 =>
      have hx : ¬ occursIn pat x := h x (List.mem_cons_self x (y :: t2))
      have hrest : ¬ occursIn pat (joinNL (y :: t2)) :=
        ih (fun l hl => h l (List.mem_cons_of_mem x hl))
      intro hocc
      have hjoin : joinNL (x :: y :: t2) = x ++ '\n' :: joinNL (y :: t2) := by
        simp [joinNL, joinSep]
      rw [hjoin] at hocc
      rcases occursIn_append_cons hocc hp hnl with h1 | h1
      · exact hx h1
      · exact hrest h1

/-- The same absence property for the blank-line join used between bundle
fragments. -/
theorem not_occursIn_joinSep2 {pat : List Char} (hp : pat ≠ []) (hnl : '\n' ∉ pat) :
    ∀ ls : List (List Char), (∀ l ∈ ls, ¬ occursIn pat l) →
      ¬ occursIn pat (joinSep nl2 ls) := by
  intro ls
  induction ls with
  | nil => intro _; exact not_occursIn_nil hp
  | cons x t ih =>
    intro h
    cases t with
    | nil => simpa [joinSep] using h x (List.mem_cons_self x [])
    | cons y t2 =>
      have hx : ¬ occursIn pat x := h x (List.mem_cons_self x (y :: t2))
      have hrest : ¬ occursIn pat (joinSep nl2 (y :: t2)) :=
        ih (fun l hl => h l (List.mem_cons_of_mem x hl))
      intro hocc
      have hjoin : joinSep nl2 (x :: y :: t2) =
          x ++ '\n' :: ('\n' :: joinSep nl2 (y :: t2)) := by
        simp [joinSep, nl2]
      rw [hjoin] at hocc
      rcases occursIn_append_cons hocc hp hnl with h1 | h1
      · exact hx h1
      · have h1b : occursIn pat ([] ++ '\n' :: joinSep nl2 (y :: t2)) := by
          simpa using h1
        rcases occursIn_append_cons h1b hp hnl with h2 | h2
        · exact not_occursIn_nil hp h2
        · exact hrest h2

/-- A newline-free text splits into the single line it is. -/
theorem splitNL_no_nl {x : List Char} (h : '\n' ∉ x) : splitNL x = [x] := by
  induction x with
  | nil => rfl
  | cons c cs ih =>
    have hc : ¬ (c = '\n') := fun e => h (by rw [e]; exact List.mem_cons_self _ _)
    have hcs : '\n' ∉ cs := fun m => h (List.mem_cons_of_mem _ m)
    simp [splitNL, hc, ih hcs]

/-- Splitting a text of the form line, newline, rest peels off the line. -/
theorem splitNL_append_nl {x z : List Char} (h : '\n' ∉ x) :
    splitNL (x ++ '\n' :: z) = x :: splitNL z := by
  induction x with
  | nil => simp [splitNL]
  | cons c cs ih =>
    have hc : ¬ (c = '\n') := fun e => h (by rw [e]; exact List.mem_cons_self _ _)
    have hcs : '\n' ∉ cs := fun m => h (List.mem_cons_of_mem _ m)
    have hne := ih hcs
    simp [splitNL, hc, hne]

/-- Splitting the newline join of nonempty newline-free lines returns the
lines. -/
theorem splitNL_join {ls : List (List Char)} (hne : ls ≠ [])
    (hnl : ∀ l ∈ ls, '\n' ∉ l) : splitNL (joinNL ls) = ls := by
  induction ls with
  | nil => exact absurd rfl hne
  | cons x t ih =>
    cases t with
    | nil =>
      simpa [joinNL, joinSep] using splitNL_no_nl (hnl x (List.mem_cons_self x []))
    | cons y t2 =>
      have hx := hnl x (List.mem_cons_self x (y :: t2))
      have hrec := ih (List.cons_ne_nil y t2)
        (fun l hl => hnl l (List.mem_cons_of_mem x hl))
      have hjoin : joinNL (x :: y :: t2) = x ++ '\n' :: joinNL (y :: t2) := by
        simp [joinNL, joinSep]
      rw [hjoin, splitNL_append_nl hx, hrec]

/-- Dropping the leading elements that all satisfy the predicate. -/
theorem dropWhile_all_append {p : List Char → Bool}
    (decs body : List (List Char)) (h : ∀ d ∈ decs, p d = true) :
    List.dropWhile p (decs ++ body) = List.dropWhile p body := by
  induction decs with
  | nil => rfl
  | cons d t ih =>
    have hd : p d = true := h d (List.mem_cons_self d t)
    simp only [List.cons_append, List.dropWhile_cons, hd, if_true]
    exact ih (fun x hx => h x (List.mem_cons_of_mem d hx))

/-- dropWhile is the identity when the first element already fails the
predicate. -/
theorem dropWhile_head_false {p : List Char → Bool} (body : List (List Char))
    (h : ∀ l ∈ body.take 1, p l = false) :
    List.dropWhile p body = body := by
  cases body with
  | nil => rfl
  | cons b t =>
    have hb : p b = false := h b (by simp)
    simp [List.dropWhile_cons, hb]

/-- Stripping a clean source removes exactly its leading decorator block. -/
theorem strip_decorators_clean {pat src : List Char} (h : CleanSource pat src) :
    ∃ body, strip_decorators src = joinNL body ∧ body ≠ [] ∧
      (∀ l ∈ body, '\n' ∉ l ∧ containsL pat l = false) := by
  obtain ⟨decs, body, hsplit, hdecs, hne, hhead, hlines⟩ := h
  refine ⟨body, ?_, hne, hlines⟩
  unfold strip_decorators
  rw [hsplit, dropWhile_all_append decs body hdecs, dropWhile_head_false body hhead]

/-- The margin-removal step of dedent cannot create an occurrence. -/
theorem not_occursIn_dedent_step {pat m l : List Char} (h : ¬ occursIn pat l) :
    ¬ occursIn pat (if startsWithL m l then l.drop m.length else l) := by
  split
  · exact not_occursIn_drop h m.length
  · exact h

/-- Processing a clean fragment yields text free of the pattern: the
decorator lines are gone and dedenting only blanks lines or drops their
margins. -/
theorem procSource_clean {pat src : List Char} (hp : pat ≠ [])
    (hnl : '\n' ∉ pat) (h : CleanSource pat src) :
    ¬ occursIn pat (procSource src) := by
  obtain ⟨body, hstrip, hne, hlines⟩ := strip_decorators_clean h
  have hbody : ∀ l ∈ body, ¬ occursIn pat l := by
    intro l hl hocc
    have := (containsL_iff pat l).mpr hocc
    rw [(hlines l hl).2] at this
    exact Bool.noConfusion this
  have hsplit2 : splitNL (joinNL body) = body :=
    splitNL_join hne (fun l hl => (hlines l hl).1)
  unfold procSource
  rw [hstrip]
  simp only [pyDedent, hsplit2]
  apply not_occursIn_joinNL hp hnl
  intro l' hl'
  obtain ⟨l0, hl0, rfl⟩ := List.mem_map.mp hl'
  obtain ⟨l1, hl1, rfl⟩ := List.mem_map.mp hl0
  have hc1 : ¬ occursIn pat l1 := hbody l1 hl1
  have h2 : ¬ occursIn pat (if !l1.isEmpty && l1.all isTabSpaceB then [] else l1) := by
    split
    · exact not_occursIn_nil hp
    · exact hc1
  exact not_occursIn_dedent_step h2

/-- General absence theorem for the bundle: a nonempty newline-free pattern
confined to the decorator lines of every fragment does not occur anywhere in
the built bundle. -/
theorem bundle_free_of_refs_general {pat : List Char} (hp : pat ≠ [])
    (hnl : '\n' ∉ pat) (entrySrc : List Char) (depSrcs : List (List Char))
    (hentry : CleanSource pat entrySrc)
    (hdeps : ∀ d ∈ depSrcs, CleanSource pat d) :
    ¬ occursIn pat (buildBundle entrySrc depSrcs) := by
  have hE : ¬ occursIn pat (procSource entrySrc) := procSource_clean hp hnl hentry
  have hD : ¬ occursIn pat (joinSep nl2 (depSrcs.map procSource)) := by
    apply not_occursIn_joinSep2 hp hnl
    intro l hl
    obtain ⟨d, hd, rfl⟩ := List.mem_map.mp hl
    exact procSource_clean hp hnl (hdeps d hd)
  intro hocc
  have hb : buildBundle entrySrc depSrcs =
      joinSep nl2 (depSrcs.map procSource) ++
        '\n' :: ('\n' :: procSource entrySrc) := by
    simp [buildBundle, nl2]
  rw [hb] at hocc
  rcases occursIn_append_cons hocc hp hnl with h1 | h1
  · exact hD h1
  · have h1b : occursIn pat ([] ++ '\n' :: procSource entrySrc) := by simpa using h1
    rcases occursIn_append_cons h1b hp hnl with h2 | h2
    · exact not_occursIn_nil hp h2
    · exact hE h2

/-- C6: for fragments shaped as decorated definitions whose references to
the dispatch and registration mechanism sit only on their leading decorator
lines, the built bundle contains no occurrence of the names remote_func or
remote_if_enabled: the bundle is plain source with no trace of the client
mechanism. -/
theorem bundle_free_of_dispatch_refs (entrySrc : List Char)
    (depSrcs : List (List Char))
    (h1 : CleanSource (("remote_func").data) entrySrc)
    (h2 : ∀ d ∈ depSrcs, CleanSource (("remote_func").data) d)
    (h3 : CleanSource (("remote_if_enabled").data) entrySrc)
    (h4 : ∀ d ∈ depSrcs, CleanSource (("remote_if_enabled").data) d) :
    containsL (("remote_func").data) (buildBundle entrySrc depSrcs) = false ∧
    containsL (("remote_if_enabled").data) (buildBundle entrySrc depSrcs) = false := by
  constructor
  · have hfree := bundle_free_of_refs_general (by decide) (by decide)
      entrySrc depSrcs h1 h2
    cases hcb : containsL (("remote_func").data) (buildBundle entrySrc depSrcs) with
    | false => rfl
    | true => exact absurd ((containsL_iff _ _).mp hcb) hfree
  · have hfree := bundle_free_of_refs_general (by decide) (by decide)
      entrySrc depSrcs h3 h4
    cases hcb : containsL (("remote_if_enabled").data) (buildBundle entrySrc depSrcs) with
    | false => rfl
    | true => exact absurd ((containsL_iff _ _).mp hcb) hfree

/-- Witness for bundle_free_of_dispatch_refs at the decorated entry and
helper sources of myscript.py. -/
theorem bundle_free_of_dispatch_refs_witness :
    containsL (("remote_func").data) (buildBundle entrySrcEx [depSrcEx]) = false ∧
    containsL (("remote_if_enabled").data) (buildBundle entrySrcEx [depSrcEx]) = false :=
  bundle_free_of_dispatch_refs entrySrcEx [depSrcEx]
    ⟨[("@remote_if_enabled(remote_url=URL, print_stdout=True)").data],
     [("def test():").data, ("    return 123").data],
     by decide, by decide, by decide, by decide, by decide⟩
    (fun d hd => by
      rw [List.mem_singleton.mp hd]
      exact ⟨[("@remote_func").data],
        [("def hello_world():").data, ("    return 42").data],
        by decide, by decide, by decide, by decide, by decide⟩)
    ⟨[("@remote_if_enabled(remote_url=URL, print_stdout=True)").data],
     [("def test():").data, ("    return 123").data],
     by decide, by decide, by decide, by decide, by decide⟩
    (fun d hd => by
      rw [List.mem_singleton.mp hd]
      exact ⟨[("@remote_func").data],
        [("def hello_world():").data, ("    return 42").data],
        by decide, by decide, by decide, by decide, by decide⟩)

/-!
Theorems about the Executor.
-/

/-- C2: every failure during bundle evaluation, entry-point lookup, or
entry-point invocation yields the same structured failure outcome: the
error-shaped body, status field error, transport status 500; no failure
escapes the handler as an unhandled fault, exec_code being total. -/
theorem exec_failure_always_structured (sem : EvalSem) (p : Payload)
    (h : (∃ e tb out, sem p.code [] = EvalOut.exn e tb out) ∨
         (∃ env out, sem p.code [] = EvalOut.ok env out ∧
            lookupEnv env p.func_name = none) ∨
         (∃ env out1 f e tb out2, sem p.code [] = EvalOut.ok env out1 ∧
            lookupEnv env p.func_name = some f ∧
            f.call p.args p.kwargs = CallOut.exn e tb out2)) :
    ∃ e tb out, exec_code sem p = ExecResponse.err e tb out ∧
      (exec_code sem p).statusField = "error" ∧
      (exec_code sem p).httpStatus = 500 := by
  rcases h with ⟨e, tb, out, h1⟩ | ⟨env, out, h1, h2⟩ |
    ⟨env, out1, f, e, tb, out2, h1, h2, h3⟩
  · exact ⟨e, tb, out, by simp [exec_code, h1],
      by simp [exec_code, h1, ExecResponse.statusField],
      by simp [exec_code, h1, ExecResponse.httpStatus]⟩
  · exact ⟨keyErrorStr p.func_name, keyErrorTb p.func_name, out,
      by simp [exec_code, h1, h2],
      by simp [exec_code, h1, h2, ExecResponse.statusField],
      by simp [exec_code, h1, h2, ExecResponse.httpStatus]⟩
  · exact ⟨e, tb, out1 ++ out2, by simp [exec_code, h1, h2, h3],
      by simp [exec_code, h1, h2, h3, ExecResponse.statusField],
      by simp [exec_code, h1, h2, h3, ExecResponse.httpStatus]⟩

/-- Witness for exec_failure_always_structured: a bundle whose evaluation
raises a syntax error is answered with the structured failure body. -/
theorem exec_failure_always_structured_witness :
    ∃ e tb out, exec_code semBad payBad = ExecResponse.err e tb out ∧
      (exec_code semBad payBad).statusField = "error" ∧
      (exec_code semBad payBad).httpStatus = 500 :=
  exec_failure_always_structured semBad payBad (Or.inl ⟨_, _, _, rfl⟩)

/-- C3: the stdout field of a failure outcome is exactly the output captured
before the failure point: the evaluation output alone when evaluation or
lookup fails, and the evaluation output followed by the partial invocation
output when the invocation fails. -/
theorem exec_failure_stdout_preserved (sem : EvalSem) (p : Payload) :
    (∀ e tb out, sem p.code [] = EvalOut.exn e tb out →
        (exec_code sem p).stdoutField = out) ∧
    (∀ env out1, sem p.code [] = EvalOut.ok env out1 →
        lookupEnv env p.func_name = none →
        (exec_code sem p).stdoutField = out1) ∧
    (∀ env out1 f e tb out2, sem p.code [] = EvalOut.ok env out1 →
        lookupEnv env p.func_name = some f →
        f.call p.args p.kwargs = CallOut.exn e tb out2 →
        (exec_code sem p).stdoutField = out1 ++ out2) := by
  refine ⟨?_, ?_, ?_⟩
  · intro e tb out h1
    simp [exec_code, h1, ExecResponse.stdoutField]
  · intro env out1 h1 h2
    simp [exec_code, h1, h2, ExecResponse.stdoutField]
  · intro env out1 f e tb out2 h1 h2 h3
    simp [exec_code, h1, h2, h3, ExecResponse.stdoutField]

/-- Witness for exec_failure_stdout_preserved: output printed during bundle
evaluation is still in the stdout field after the entry point fails. -/
theorem exec_failure_stdout_preserved_witness :
    (exec_code semDiv payDiv).stdoutField = ("hi\n") ++ ("") :=
  (exec_failure_stdout_preserved semDiv payDiv).2.2 [("f", divFn)] ("hi\n") divFn
    ("division by zero")
    ("Traceback (most recent call last):\nZeroDivisionError: division by zero")
    ("") rfl rfl rfl

/-- C7: submitting the same request twice, after any history of earlier
requests, produces twice the response of handling it in isolation: each call
evaluates in a fresh empty environment, so nothing leaks across calls. -/
theorem exec_code_idempotent_across_calls (sem : EvalSem) (reqs : List Payload)
    (p : Payload) :
    runServer sem (reqs ++ [p, p]) =
      runServer sem reqs ++ [exec_code sem p, exec_code sem p] := by
  simp [runServer]

/-- C10: an entry point that completes but returns a value the response
serialization rejects yields the error-shaped failure body, with message and
trace, through the same channel as evaluation failures. -/
theorem unserializable_result_is_failure (sem : EvalSem) (p : Payload)
    (env : Env) (out1 : String) (f : PyFunc) (v : PyVal) (out2 : String)
    (h1 : sem p.code [] = EvalOut.ok env out1)
    (h2 : lookupEnv env p.func_name = some f)
    (h3 : f.call p.args p.kwargs = CallOut.ok v out2)
    (h4 : serialize v = none) :
    exec_code sem p =
      ExecResponse.err (serializeErrorStr v) (serializeErrorTb v) (out1 ++ out2) ∧
    (exec_code sem p).statusField = "error" ∧
    (exec_code sem p).httpStatus = 500 := by
  refine ⟨?_, ?_, ?_⟩ <;>
    simp [exec_code, h1, h2, h3, h4, ExecResponse.statusField,
      ExecResponse.httpStatus]

/-- Witness for unserializable_result_is_failure: a bundle whose entry point
returns a bare object is answered with the failure body. -/
theorem unserializable_result_is_failure_witness :
    exec_code semRaw payRaw =
      ExecResponse.err (serializeErrorStr (PyVal.raw ("object")))
        (serializeErrorTb (PyVal.raw ("object"))) (("") ++ ("made an object\n")) ∧
    (exec_code semRaw payRaw).statusField = "error" ∧
    (exec_code semRaw payRaw).httpStatus = 500 :=
  unserializable_result_is_failure semRaw payRaw [("g", rawFn)] ("") rawFn
    (PyVal.raw ("object")) ("made an object\n") rfl rfl rfl rfl

/-!
Theorems about the Dispatcher.
-/

/-- C5: when the remote switch is off at call time, the wrapped call prints
nothing of its own and is exactly the original local function applied to the
given args and kwargs, value or raised exception included. -/
theorem local_path_identical (cfg : WrapperCfg) (fullCode : List Char)
    (fname : String) (func : LocalFn) (transport : ClientPayload → HttpResp)
    (osEnv : List (String × String)) (args : List PyVal)
    (kwargs : List (String × PyVal))
    (h : remote_enabled osEnv = false) :
    wrapper cfg fullCode fname func transport osEnv args kwargs =
      ⟨"", func args kwargs⟩ := by
  simp [wrapper, h]

/-- Witness for local_path_identical at a concrete local function. -/
theorem local_path_identical_witness :
    wrapper cfgD [] ("t") localFive transGarbage envOff [] [] =
      ⟨"", Except.ok (PyVal.json (Json.num 5))⟩ :=
  local_path_identical cfgD [] ("t") localFive transGarbage envOff [] [] rfl

/-- C8: when the response body does not decode as JSON, the wrapper raises
the protocol error whose message carries the raw body text. -/
theorem nonjson_body_raises_protocol_error (cfg : WrapperCfg) (fullCode : List Char)
    (fname : String) (func : LocalFn) (transport : ClientPayload → HttpResp)
    (osEnv : List (String × String)) (args : List PyVal)
    (kwargs : List (String × PyVal))
    (hen : remote_enabled osEnv = true)
    (hjson : (transport ⟨fullCode, fname, args, kwargs⟩).json = none) :
    wrapper cfg fullCode fname func transport osEnv args kwargs =
      ⟨"", Except.error (PyExn.runtimeError (("Remote returned non-JSON body: ") ++
        (transport ⟨fullCode, fname, args, kwargs⟩).text))⟩ := by
  simp [wrapper, hen, remoteDispatch, hjson]

/-- Witness for nonjson_body_raises_protocol_error at a concrete garbage
response. -/
theorem nonjson_body_raises_protocol_error_witness :
    wrapper cfgD [] ("t") localFive transGarbage envOn [] [] =
      ⟨"", Except.error (PyExn.runtimeError (("Remote returned non-JSON body: ") ++
        (transGarbage ⟨[], "t", [], []⟩).text))⟩ :=
  nonjson_body_raises_protocol_error cfgD [] ("t") localFive transGarbage envOn
    [] [] rfl rfl

/-- C9: the enable switch is read from the process environment at each call,
so the same wrapper takes the local path under an environment where the
switch is off and the remote path under an environment where it is on. -/
theorem remote_switch_read_at_call_time (cfg : WrapperCfg) (fullCode : List Char)
    (fname : String) (func : LocalFn) (transport : ClientPayload → HttpResp)
    (env1 env2 : List (String × String)) (args : List PyVal)
    (kwargs : List (String × PyVal))
    (h1 : remote_enabled env1 = false) (h2 : remote_enabled env2 = true) :
    wrapper cfg fullCode fname func transport env1 args kwargs =
      ⟨"", func args kwargs⟩ ∧
    wrapper cfg fullCode fname func transport env2 args kwargs =
      remoteDispatch cfg fullCode fname transport args kwargs := by
  constructor
  · simp [wrapper, h1]
  · simp [wrapper, h2]

/-- Witness for remote_switch_read_at_call_time: the empty environment takes
the local path and the environment binding USE_REMOTE_EXEC to true takes the
remote path. -/
theorem remote_switch_read_at_call_time_witness :
    wrapper cfgD [] ("t") localFive transGarbage envOff [] [] =
      ⟨"", localFive [] []⟩ ∧
    wrapper cfgD [] ("t") localFive transGarbage envOn [] [] =
      remoteDispatch cfgD [] ("t") transGarbage [] [] :=
  remote_switch_read_at_call_time cfgD [] ("t") localFive transGarbage
    envOff envOn [] [] rfl rfl

/-- C1 counterexample: a response whose body decodes with status ok and
result 7 but arrives with transport status 500 does not make the wrapper
return the result; the wrapper raises the remote-execution error derived
from the transport status, so body status alone does not decide success. -/
theorem remote_ok_requires_http200_cex :
    (wrapper cfgD [] ("f") localFive transOkBody500 envOn [] []).outcome =
      Except.error (PyExn.runtimeError ("Remote execution failed: HTTP 500")) ∧
    (wrapper cfgD [] ("f") localFive transOkBody500 envOn [] []).outcome ≠
      Except.ok (PyVal.json (Json.num 7)) := by
  have hv : (wrapper cfgD [] ("f") localFive transOkBody500 envOn [] []).outcome =
      Except.error (PyExn.runtimeError ("Remote execution failed: HTTP 500")) := rfl
  refine ⟨hv, ?_⟩
  rw [hv]
  intro h
  exact Except.noConfusion h

/-- C1 as amended: when the transport status code is 200 and the decoded
body has status ok and a result field, the wrapper returns exactly the
result value of the body. -/
theorem remote_ok_with_http200_returns_result (cfg : WrapperCfg)
    (fullCode : List Char) (fname : String) (func : LocalFn)
    (transport : ClientPayload → HttpResp) (osEnv : List (String × String))
    (args : List PyVal) (kwargs : List (String × PyVal)) (data v : Json)
    (hen : remote_enabled osEnv = true)
    (hjson : (transport ⟨fullCode, fname, args, kwargs⟩).json = some data)
    (hcode : (transport ⟨fullCode, fname, args, kwargs⟩).status_code = 200)
    (hstat : data.get ("status") = some (Json.str ("ok")))
    (hres : data.get ("result") = some v) :
    (wrapper cfg fullCode fname func transport osEnv args kwargs).outcome =
      Except.ok (PyVal.json v) := by
  simp [wrapper, hen, remoteDispatch, hjson, hcode, hstat, statusIsOk, hres]

/-- Witness for remote_ok_with_http200_returns_result at a concrete success
response. -/
theorem remote_ok_with_http200_returns_result_witness :
    (wrapper cfgD [] ("f") localFive transOk200 envOn [] []).outcome =
      Except.ok (PyVal.json (Json.num 7)) :=
  remote_ok_with_http200_returns_result cfgD [] ("f") localFive transOk200 envOn
    [] [] (Json.obj [("status", Json.str ("ok")), ("result", Json.num 7)])
    (Json.num 7) rfl rfl rfl rfl rfl

end Evalmode
